import Mathlib

/-!
Verification of the PartSelect agent core: the relational (SQL) query tool,
the semantic (vector) search tool, the ReAct control loop wiring, and the
session / tool-call logger.  Each Lean definition is a shallow embedding of
the corresponding Python function; Python strings are Lean strings, Python
dicts with a fixed key set are Lean structures, optional dict keys are
Option fields, and external collaborators (the relational backend, the
vector index, the decision model) are function parameters.
-/

/-- A single quote character, used to build error-message strings. -/
def squote : String := String.singleton (Char.ofNat 39)

/-- ASCII whitespace test matching the characters stripped by Python
str.strip on the query strings that occur here. -/
def pyIsSpace (c : Char) : Bool := c == ' ' || c == '\t' || c == '\n' || c == '\r'

/-- Python str.strip: drop leading and trailing whitespace. -/
def pyStrip (s : String) : String :=
  ⟨(s.data.dropWhile pyIsSpace).reverse.dropWhile pyIsSpace |>.reverse⟩

/-- Python str.upper restricted to ASCII, which is all the tool handles. -/
def pyUpper (s : String) : String := ⟨s.data.map Char.toUpper⟩

/-- Python str.lower restricted to ASCII, which is all the tool handles. -/
def pyLower (s : String) : String := ⟨s.data.map Char.toLower⟩

/-- Python str.startswith. -/
def pyStartswith (s pre : String) : Bool := pre.data.isPrefixOf s.data

/-- Substring occurrence on character lists: does needle occur contiguously
inside hay?  This is Python's `needle in hay` on strings. -/
def containsSub (needle : List Char) : List Char → Bool
  | [] => needle.isEmpty
  | c :: t => needle.isPrefixOf (c :: t) || containsSub needle t

/-- Python string membership `needle in hay`. -/
def pyIn (needle hay : String) : Bool := containsSub needle.data hay.data

/-- Python str.split on a newline followed by taking element 0:
the first line of an error message. -/
def firstLine (s : String) : String := (s.splitOn "\n").headD ""

deriving instance DecidableEq for Except

namespace SqlTool

/-- One database row: a mapping from column name to (stringly rendered)
scalar value.  The row shape is query dependent (spec section 3). -/
abbrev Row : Type := List (String × String)

/-- One element of the list returned by sql_search_tool: either a data row
or an error record.  The error record always has an `error` key and may or
may not carry a `query` key (validation errors do not, execution errors do,
see sql_search_tool.py lines 105, 110, 116, 145, 149). -/
inductive SqlEntry where
  | row (r : Row)
  | err (error : String) (query : Option String)
  deriving DecidableEq

/-- What the external relational backend does with a query: returns rows,
raises a psycopg2 database error, or raises some other exception
(sql_search_tool.py lines 118-149). -/
inductive BackendResult where
  | rows (rs : List Row)
  | pgError (msg : String)
  | otherError (msg : String)

/-- The external relational backend, an input of the embedding. -/
def SqlBackend : Type := String → BackendResult

/-- Output of one sql_search_tool call together with whether the backend
was contacted (whether a connection was opened). -/
structure SqlResult where
  output : List SqlEntry
  backendCalled : Bool
  deriving DecidableEq

/-- The denylist of mutating keywords, sql_search_tool.py line 113. -/
def dangerous_keywords : List String :=
  ["DROP", "DELETE", "INSERT", "UPDATE", "ALTER", "CREATE", "TRUNCATE", "GRANT", "REVOKE"]

/-- Error message for a non-SELECT query, sql_search_tool.py line 110. -/
def onlySelectMsg : String :=
  "Only SELECT queries are allowed. No INSERT, UPDATE, DELETE, DROP, or other modifying statements."

/-- Error message for a denylisted keyword, sql_search_tool.py line 116. -/
def dangerousMsg (keyword : String) : String :=
  "Dangerous SQL keyword " ++ squote ++ keyword ++ squote ++
    " detected. Only SELECT queries are allowed."

/-- Error message for empty input, sql_search_tool.py line 105. -/
def invalidInputMsg : String :=
  "Invalid input: sql_query must be a non-empty string"

/-- The denylist scan of sql_search_tool.py lines 114-116: return the error
for the first keyword occurring as a substring of the uppercased query. -/
def scanKeywords (query_upper : String) : List String → Option String
  | [] => none
  | kw :: rest =>
      if pyIn kw query_upper then some (dangerousMsg kw) else scanKeywords query_upper rest

/-- Shallow embedding of sql_search_tool (sql_search_tool.py lines 90-149).
The try block is modelled by the backend parameter: `rows` plays the
successful fetchall, `pgError` the psycopg2.Error handler (which keeps only
the first line of the message), `otherError` the generic handler. -/
def sql_search_tool (backend : SqlBackend) (sql_query : String) : SqlResult :=
  if sql_query.isEmpty then
    { output := [.err invalidInputMsg none], backendCalled := false }
  else
    let query_upper := pyUpper (pyStrip sql_query)
    if !(pyStartswith query_upper "SELECT") then
      { output := [.err onlySelectMsg none], backendCalled := false }
    else
      match scanKeywords query_upper dangerous_keywords with
      | some msg => { output := [.err msg none], backendCalled := false }
      | none =>
        match backend sql_query with
        | .rows rs => { output := rs.map .row, backendCalled := true }
        | .pgError e =>
            { output := [.err ("SQL execution error: " ++ firstLine e) (some sql_query)],
              backendCalled := true }
        | .otherError e =>
            { output := [.err ("Tool execution error: " ++ e) (some sql_query)],
              backendCalled := true }

/-- A backend that returns no rows, used for concrete evaluations. -/
def emptyBackend : SqlBackend := fun _ => .rows []

end SqlTool

open SqlTool in
/-- C1 counterexample.  On the input "DROP TABLE parts" the tool does NOT
return the dangerous-keyword error with a query field: the SELECT-prefix
check fires first and returns the only-SELECT error without a query field. -/
theorem c1_drop_table_counterexample :
    (sql_search_tool emptyBackend "DROP TABLE parts").output
      ≠ [.err (dangerousMsg "DROP") (some "DROP TABLE parts")] ∧
    (sql_search_tool emptyBackend "DROP TABLE parts").output
      = [.err onlySelectMsg none] := by
  constructor
  · decide
  · decide

open SqlTool in
/-- C1 amended.  For the input "DROP TABLE parts" and any backend, the tool
returns exactly the single-element error sequence whose error text is the
only-SELECT message (with no query field), and issues no backend call. -/
theorem c1_drop_table_amended (backend : SqlBackend) :
    sql_search_tool backend "DROP TABLE parts"
      = { output := [.err onlySelectMsg none], backendCalled := false } := by
  rfl

namespace SqlTool

/-- If some keyword of the list occurs in the query text, the scan stops at
the first occurring keyword and produces its dangerous-keyword message. -/
lemma scanKeywords_hit (u : String) :
    ∀ l : List String, (∃ kw ∈ l, pyIn kw u = true) →
      ∃ kw ∈ l, scanKeywords u l = some (dangerousMsg kw) := by
  intro l
  induction l with
  | nil => rintro ⟨kw, h, -⟩; exact absurd h (List.not_mem_nil kw)
  | cons a t ih =>
      rintro ⟨kw, hmem, hin⟩
      by_cases ha : pyIn a u = true
      · exact ⟨a, List.mem_cons_self a t, by simp [scanKeywords, ha]⟩
      · rcases List.mem_cons.mp hmem with rfl | hmem'
        · exact absurd hin ha
        · obtain ⟨kw', hkw', hs⟩ := ih ⟨kw, hmem', hin⟩
          exact ⟨kw', List.mem_cons_of_mem a hkw', by simp [scanKeywords, ha, hs]⟩

end SqlTool

open SqlTool in
/-- C9.  The denylist scan matches keywords as substrings of the uppercased
query text: every query whose stripped uppercased text starts with SELECT
and contains any denylisted keyword as a substring is rejected with the
single-element dangerous-keyword error, and the backend is never called. -/
theorem c9_substring_denylist (backend : SqlBackend) (q : String)
    (hne : q.isEmpty = false)
    (hsel : pyStartswith (pyUpper (pyStrip q)) "SELECT" = true)
    (hkw : ∃ kw ∈ dangerous_keywords, pyIn kw (pyUpper (pyStrip q)) = true) :
    (∃ kw ∈ dangerous_keywords,
        (sql_search_tool backend q).output = [.err (dangerousMsg kw) none]) ∧
    (sql_search_tool backend q).backendCalled = false := by
  obtain ⟨kw, hmem, hscan⟩ := scanKeywords_hit (pyUpper (pyStrip q)) dangerous_keywords hkw
  refine ⟨⟨kw, hmem, ?_⟩, ?_⟩ <;>
    simp [sql_search_tool, hne, hsel, hscan]

open SqlTool in
/-- C9 witness: the concrete schema query "SELECT created_at FROM parts" is
a SELECT that contains the denylisted keyword CREATE inside the identifier
created_at, so it is rejected without a backend call. -/
theorem c9_substring_denylist_witness :
    ("SELECT created_at FROM parts".isEmpty = false ∧
      pyStartswith (pyUpper (pyStrip "SELECT created_at FROM parts")) "SELECT" = true ∧
      (∃ kw ∈ dangerous_keywords,
        pyIn kw (pyUpper (pyStrip "SELECT created_at FROM parts")) = true)) ∧
    ((∃ kw ∈ dangerous_keywords,
        (sql_search_tool emptyBackend "SELECT created_at FROM parts").output
          = [.err (dangerousMsg kw) none]) ∧
      (sql_search_tool emptyBackend "SELECT created_at FROM parts").backendCalled = false) :=
  ⟨⟨by decide, by decide, by decide⟩,
    c9_substring_denylist emptyBackend "SELECT created_at FROM parts"
      (by decide) (by decide) (by decide)⟩

namespace VectorTool

/-- Metadata attached to an indexed chunk.  Fields mirror the dictionaries
built in create_vectordb.py: `none` models an absent key (policy chunks
carry no appliance_type key at all), `some ""` models a present but empty
value (blog and repair chunks default missing source fields to ""). -/
structure DocMetadata where
  document_type : Option String := none
  appliance_type : Option String := none
  chunk_index : Nat := 0
  total_chunks : Nat := 1
  title : Option String := none
  url : Option String := none
  author : Option String := none
  excerpt : Option String := none
  part_name : Option String := none
  category : Option String := none
  part_url : Option String := none
  symptom_url : Option String := none
  policy_type : Option String := none
  deriving DecidableEq

/-- A LangChain Document: embedded text plus its metadata. -/
structure Document where
  page_content : String
  metadata : DocMetadata
  deriving DecidableEq

/-- Python truthiness of `metadata.get("appliance_type")`: an absent key
(None) and an empty string are both falsy. -/
def truthy : Option String → Bool
  | none => false
  | some s => !s.isEmpty

/-- Shallow embedding of apply_filters (vector_search_tool.py lines
196-231).  The score component is kept generic; the two `continue`
branches of the Python loop become the two skipping cases. -/
def apply_filters {α : Type} (results : List (Document × α))
    (document_type appliance_type : String) : List (Document × α) :=
  match results with
  | [] => []
  | r :: rest =>
      let doc := r.1
      if document_type != "all" && doc.metadata.document_type != some document_type then
        apply_filters rest document_type appliance_type
      else if appliance_type != "all" && truthy doc.metadata.appliance_type
          && doc.metadata.appliance_type != some appliance_type then
        apply_filters rest document_type appliance_type
      else
        r :: apply_filters rest document_type appliance_type

/-- A formatted hit (format_result, vector_search_tool.py lines 234-285).
Variant-specific keys are Option fields left `none` when the variant does
not add them; relevance_score is kept generic in the score type. -/
structure FormattedResult (α : Type) where
  rank : Nat
  content : String
  document_type : Option String
  appliance_type : Option String
  chunk_index : Nat
  total_chunks : Nat
  title : Option String := none
  url : Option String := none
  author : Option String := none
  excerpt : Option String := none
  part_name : Option String := none
  category : Option String := none
  part_url : Option String := none
  symptom_url : Option String := none
  policy_type : Option String := none
  relevance_score : Option α := none
  deriving DecidableEq

/-- Shallow embedding of format_result (vector_search_tool.py lines
234-285): common fields always, variant fields by document_type tag,
score only when provided. -/
def format_result {α : Type} (doc : Document) (rank : Nat) (score : Option α) :
    FormattedResult α :=
  let m := doc.metadata
  let base : FormattedResult α :=
    { rank := rank, content := doc.page_content, document_type := m.document_type,
      appliance_type := m.appliance_type, chunk_index := m.chunk_index,
      total_chunks := m.total_chunks, relevance_score := score }
  if m.document_type == some "blog" then
    { base with title := m.title, url := m.url, author := m.author, excerpt := m.excerpt }
  else if m.document_type == some "repair" then
    { base with
        part_name := m.part_name, category := m.category,
        part_url := m.part_url, symptom_url := m.symptom_url }
  else if m.document_type == some "policy" then
    { base with policy_type := m.policy_type, title := m.title, url := m.url }
  else base

/-- The formatting loop of vector_search_tool.py lines 346-350:
`for i, result in enumerate(filtered_results, 1)` with the score attached
only when include_score was requested. -/
def formatAll {α : Type} (include_score : Bool) (rank : Nat) :
    List (Document × Option α) → List (FormattedResult α)
  | [] => []
  | r :: rest =>
      format_result r.1 rank (if include_score then r.2 else none)
        :: formatAll include_score (rank + 1) rest

/-- The vector index, an external collaborator: given the query text and
the over-fetch size it returns the nearest neighbors in similarity order,
with their scores (the no-score branch of the source wraps plain documents
as (doc, None) tuples, so both branches produce this shape). -/
def VectorStore (α : Type) : Type := String → Nat → List (Document × Option α)

/-- Shallow embedding of the body of vector_search_tool
(vector_search_tool.py lines 325-352): over-fetch min(k*3, 50) neighbors,
apply the metadata filters, truncate to k, then format with 1-based ranks
assigned over the truncated list. -/
def vector_search_tool {α : Type} (store : VectorStore α) (query : String)
    (k : Nat) (document_type appliance_type : String) (include_score : Bool) :
    List (FormattedResult α) :=
  let search_k := min (k * 3) 50
  let results := store query search_k
  let filtered_results := apply_filters results document_type appliance_type
  let limited := filtered_results.take k
  formatAll include_score 1 limited

/-- Validator for query (vector_search_tool.py lines 120-133): trimmed
length in [3, 500].  The non-string branch cannot arise in the typed
embedding; the empty-string branch is the first check. -/
def validate_query (v : String) : Except String String :=
  if v.isEmpty then .error "query must be a non-empty string"
  else
    let v := pyStrip v
    if v.length < 3 then .error "query must be at least 3 characters long"
    else if v.length > 500 then .error "query exceeds maximum length of 500 characters"
    else .ok v

/-- Validator for k (vector_search_tool.py lines 135-141): integer in
[1, 20].  Python ints are modelled as Int so out-of-range inputs such as 0
and negative values are representable. -/
def validate_k (v : Int) : Except String Int :=
  if v < 1 || v > 20 then .error "k must be an integer between 1 and 20"
  else .ok v

/-- Validator for document_type (vector_search_tool.py lines 143-151). -/
def validate_document_type (v : String) : Except String String :=
  let valid_types := ["all", "blog", "repair", "policy"]
  let v_lower := pyLower v
  if valid_types.contains v_lower then .ok v_lower
  else .error "document_type must be one of: all, blog, repair, policy"

/-- Validator for appliance_type (vector_search_tool.py lines 153-161). -/
def validate_appliance_type (v : String) : Except String String :=
  let valid_types := ["all", "refrigerator", "dishwasher"]
  let v_lower := pyLower v
  if valid_types.contains v_lower then .ok v_lower
  else .error "appliance_type must be one of: all, refrigerator, dishwasher"

/-- Raw tool input before schema validation. -/
structure RawInput where
  query : String
  k : Int := 5
  document_type : String := "all"
  appliance_type : String := "all"
  include_score : Bool := false
  deriving DecidableEq

/-- Validated tool input. -/
structure ValidInput where
  query : String
  k : Int
  document_type : String
  appliance_type : String
  include_score : Bool
  deriving DecidableEq

/-- The pydantic schema VectorSearchInput: run every field validator; any
failure aborts parsing with that validator's message. -/
def parseInput (raw : RawInput) : Except String ValidInput := do
  let q ← validate_query raw.query
  let k ← validate_k raw.k
  let dt ← validate_document_type raw.document_type
  let at_ ← validate_appliance_type raw.appliance_type
  .ok { query := q, k := k, document_type := dt, appliance_type := at_,
        include_score := raw.include_score }

/-- One entry of the list a tool call yields: a formatted hit or an error
record with error, error_type and query keys (vector_search_tool.py lines
354-370). -/
inductive ResultEntry (α : Type) where
  | hit (h : FormattedResult α)
  | err (error : String) (error_type : String) (query : String)
  deriving DecidableEq

/-- Outcome of invoking the tool through its LangChain boundary: either an
exception propagates to the caller or a list of records is returned. -/
inductive InvokeOutcome (α : Type) where
  | raised (msg : String)
  | returns (out : List (ResultEntry α))
  deriving DecidableEq

/-- The tool boundary: `@tool(args_schema=VectorSearchInput)` makes the
dispatch wrapper validate the arguments against the schema BEFORE the
function body runs; a validator failure is raised to the caller as a
pydantic ValidationError (the repository's own test suite catches these
exceptions around invoke, test_vector_search_tool.py lines 313-320).  Only
a schema-valid input reaches the body of vector_search_tool; the body's
except-ValueError handler therefore never sees a schema violation. -/
def invokeVectorSearchTool {α : Type} (store : VectorStore α) (raw : RawInput) :
    InvokeOutcome α :=
  match parseInput raw with
  | .error e => .raised e
  | .ok v =>
      .returns ((vector_search_tool store v.query v.k.toNat v.document_type
        v.appliance_type v.include_score).map .hit)

/-- A store returning nothing, for concrete evaluations. -/
def emptyStore (α : Type) : VectorStore α := fun _ _ => []

end VectorTool

namespace VectorTool

/-- formatAll preserves the length of the truncated list. -/
lemma formatAll_length {α : Type} (inc : Bool) :
    ∀ (r : Nat) (l : List (Document × Option α)), (formatAll inc r l).length = l.length := by
  intro r l
  induction l generalizing r with
  | nil => rfl
  | cons a t ih => simp [formatAll, ih]

/-- format_result stamps exactly the rank it is given. -/
lemma format_result_rank {α : Type} (d : Document) (rk : Nat) (sc : Option α) :
    (format_result d rk sc).rank = rk := by
  simp only [format_result]
  split
  · rfl
  · split
    · rfl
    · split <;> rfl

/-- The i-th formatted hit carries rank r + i when formatting starts at r. -/
lemma formatAll_rank {α : Type} (inc : Bool) :
    ∀ (l : List (Document × Option α)) (r i : Nat) (h : i < (formatAll inc r l).length),
      ((formatAll inc r l).get ⟨i, h⟩).rank = r + i := by
  intro l
  induction l with
  | nil => intro r i h; simp [formatAll] at h
  | cons a t ih =>
      intro r i h
      match i with
      | 0 =>
          show (format_result a.1 r (if inc then a.2 else none)).rank = r + 0
          rw [format_result_rank]
          exact (Nat.add_zero r).symm
      | Nat.succ j =>
          have hj : j < (formatAll inc (r + 1) t).length := Nat.lt_of_succ_lt_succ h
          show ((formatAll inc (r + 1) t).get ⟨j, hj⟩).rank = r + (j + 1)
          rw [ih (r + 1) j hj]
          omega

/-- format_result never changes the document_type field of the hit. -/
lemma format_result_document_type {α : Type} (d : Document) (rk : Nat) (sc : Option α) :
    (format_result d rk sc).document_type = d.metadata.document_type := by
  simp only [format_result]
  split <;> try rfl
  split <;> try rfl
  split <;> rfl

/-- format_result never changes the appliance_type field of the hit. -/
lemma format_result_appliance_type {α : Type} (d : Document) (rk : Nat) (sc : Option α) :
    (format_result d rk sc).appliance_type = d.metadata.appliance_type := by
  simp only [format_result]
  split <;> try rfl
  split <;> try rfl
  split <;> rfl

/-- Every formatted hit comes from some document of the truncated list. -/
lemma mem_formatAll {α : Type} (inc : Bool) :
    ∀ (l : List (Document × Option α)) (r : Nat) (hit : FormattedResult α),
      hit ∈ formatAll inc r l →
      ∃ p ∈ l, ∃ (rk : Nat) (sc : Option α), hit = format_result p.1 rk sc := by
  intro l
  induction l with
  | nil => intro r hit h; simp [formatAll] at h
  | cons a t ih =>
      intro r hit h
      rcases List.mem_cons.mp (by simpa [formatAll] using h) with h1 | h2
      · exact ⟨a, List.mem_cons_self a t, r, (if inc then a.2 else none), h1⟩
      · obtain ⟨p, hp, rk, sc, hh⟩ := ih (r + 1) hit h2
        exact ⟨p, List.mem_cons_of_mem a hp, rk, sc, hh⟩

/-- A result kept by apply_filters belongs to the candidate list and passed
both metadata predicates. -/
lemma mem_apply_filters {α : Type} (dt at_ : String) :
    ∀ (l : List (Document × α)) (p : Document × α), p ∈ apply_filters l dt at_ →
      p ∈ l ∧
      (dt ≠ "all" → p.1.metadata.document_type = some dt) ∧
      (at_ ≠ "all" → truthy p.1.metadata.appliance_type = false
          ∨ p.1.metadata.appliance_type = some at_) := by
  intro l
  induction l with
  | nil => intro p h; simp [apply_filters] at h
  | cons a t ih =>
      intro p h
      simp only [apply_filters] at h
      split at h
      · obtain ⟨hp, h2, h3⟩ := ih p h
        exact ⟨List.mem_cons_of_mem a hp, h2, h3⟩
      · split at h
        · obtain ⟨hp, h2, h3⟩ := ih p h
          exact ⟨List.mem_cons_of_mem a hp, h2, h3⟩
        · rcases List.mem_cons.mp h with rfl | hmem
          · rename_i hg1 hg2
            refine ⟨List.mem_cons_self _ _, ?_, ?_⟩
            · intro hdt
              rcases Bool.and_eq_false_iff.mp (Bool.not_eq_true _ ▸ hg1) with hc | hc
              · exact absurd (by simpa using hc) hdt
              · simpa using hc
            · intro hat
              rcases Bool.and_eq_false_iff.mp (Bool.not_eq_true _ ▸ hg2) with hc | hc
              · rcases Bool.and_eq_false_iff.mp hc with hc' | hc'
                · exact absurd (by simpa using hc') hat
                · exact Or.inl (by simpa using hc')
              · exact Or.inr (by simpa using hc)
          · obtain ⟨hp, h2, h3⟩ := ih p hmem
            exact ⟨List.mem_cons_of_mem a hp, h2, h3⟩

/-- The corpus invariant established by create_vectordb.py: every chunk
that is not a policy chunk carries a truthy appliance_type (blog and repair
chunks are partitioned into refrigerator and dishwasher source files by
that exact field, scrape_blogs.py lines 332-333 and scrape_repairs.py lines
268-269, and process_blogs / process_repairs copy it into the metadata). -/
def corpusInvariant (d : Document) : Prop :=
  d.metadata.document_type = some "policy" ∨ truthy d.metadata.appliance_type = true

instance (d : Document) : Decidable (corpusInvariant d) :=
  inferInstanceAs (Decidable
    (d.metadata.document_type = some "policy" ∨ truthy d.metadata.appliance_type = true))

end VectorTool

open VectorTool in
/-- C5.  For every valid input (one the schema validators accept) and any
index contents, the returned sequence has length at most k and the rank
fields form the contiguous 1-based sequence 1, 2, ..., n over the final
truncated list. -/
theorem c5_length_and_ranks {α : Type} (store : VectorStore α) (raw : RawInput)
    (v : ValidInput) (hv : parseInput raw = .ok v) :
    (vector_search_tool store v.query v.k.toNat v.document_type
        v.appliance_type v.include_score).length ≤ v.k.toNat ∧
    ∀ (i : Nat) (h : i < (vector_search_tool store v.query v.k.toNat v.document_type
        v.appliance_type v.include_score).length),
      ((vector_search_tool store v.query v.k.toNat v.document_type
        v.appliance_type v.include_score).get ⟨i, h⟩).rank = i + 1 := by
  constructor
  · show (formatAll v.include_score 1 ((apply_filters (store v.query (min (v.k.toNat * 3) 50))
        v.document_type v.appliance_type).take v.k.toNat)).length ≤ v.k.toNat
    rw [formatAll_length]
    exact List.length_take_le _ _
  · intro i h
    exact (formatAll_rank v.include_score _ 1 i h).trans (Nat.add_comm 1 i)

open VectorTool in
/-- C5 witness: a concrete valid input (query "ice maker not working",
k = 3) over a concrete two-document index satisfies the bound and the
contiguous-rank property. -/
theorem c5_length_and_ranks_witness :
    (parseInput { query := "ice maker not working", k := 3 }
      = .ok { query := "ice maker not working", k := 3, document_type := "all",
              appliance_type := "all", include_score := false }) ∧
    ((vector_search_tool (emptyStore Nat) "ice maker not working" (3 : Int).toNat
        "all" "all" false).length ≤ (3 : Int).toNat ∧
      ∀ (i : Nat) (h : i < (vector_search_tool (emptyStore Nat) "ice maker not working"
          (3 : Int).toNat "all" "all" false).length),
        ((vector_search_tool (emptyStore Nat) "ice maker not working" (3 : Int).toNat
          "all" "all" false).get ⟨i, h⟩).rank = i + 1) :=
  ⟨by decide,
    c5_length_and_ranks (emptyStore Nat) { query := "ice maker not working", k := 3 }
      { query := "ice maker not working", k := 3, document_type := "all",
        appliance_type := "all", include_score := false } (by decide)⟩

open VectorTool in
/-- C4.  For every valid input and any index contents satisfying the corpus
invariant (non-policy chunks carry a truthy appliance_type), every returned
hit matches a non-"all" document_type filter exactly, and under a non-"all"
appliance_type filter every returned hit either matches the requested
appliance_type or is a policy document. -/
theorem c4_filters_sound {α : Type} (store : VectorStore α) (raw : RawInput)
    (v : ValidInput) (hv : parseInput raw = .ok v)
    (hinv : ∀ p ∈ store v.query (min (v.k.toNat * 3) 50), corpusInvariant p.1) :
    ∀ hit ∈ vector_search_tool store v.query v.k.toNat v.document_type
        v.appliance_type v.include_score,
      (v.document_type ≠ "all" → hit.document_type = some v.document_type) ∧
      (v.appliance_type ≠ "all" →
        hit.appliance_type = some v.appliance_type ∨ hit.document_type = some "policy") := by
  intro hit hmem
  obtain ⟨p, hp, rk, sc, rfl⟩ := mem_formatAll v.include_score _ 1 hit hmem
  have hp' := List.mem_of_mem_take hp
  obtain ⟨hcand, hdt, hat⟩ := mem_apply_filters v.document_type v.appliance_type _ p hp'
  refine ⟨?_, ?_⟩
  · intro hne
    rw [format_result_document_type]
    exact hdt hne
  · intro hne
    rcases hat hne with htr | heq
    · right
      rw [format_result_document_type]
      rcases hinv p hcand with hpol | htru
      · exact hpol
      · exact absurd htru (by simp [htr])
    · left
      rw [format_result_appliance_type]
      exact heq

namespace VectorTool

/-- Concrete raw input for the C4 witness. -/
def c4raw : RawInput :=
  { query := "door seal", k := 3, document_type := "repair", appliance_type := "dishwasher" }

/-- The validated form of c4raw. -/
def c4valid : ValidInput :=
  { query := "door seal", k := 3, document_type := "repair", appliance_type := "dishwasher",
    include_score := false }

/-- Metadata of a dishwasher repair chunk. -/
def c4metaRepair : DocMetadata :=
  { document_type := some "repair", appliance_type := some "dishwasher" }

/-- Metadata of a refrigerator blog chunk. -/
def c4metaBlog : DocMetadata :=
  { document_type := some "blog", appliance_type := some "refrigerator" }

/-- Metadata of a policy chunk (no appliance_type key). -/
def c4metaPolicy : DocMetadata := { document_type := some "policy" }

/-- A concrete three-chunk index for the C4 witness. -/
def c4store : VectorStore Nat := fun _ _ =>
  [(⟨"fix the door seal", c4metaRepair⟩, none),
    (⟨"keeping food cold", c4metaBlog⟩, none),
    (⟨"returns are accepted", c4metaPolicy⟩, none)]

end VectorTool

open VectorTool in
/-- C4 witness: a concrete index holding one dishwasher repair chunk, one
refrigerator blog chunk and one policy chunk, filtered with
document_type = "repair" and appliance_type = "dishwasher". -/
theorem c4_filters_sound_witness :
    (parseInput c4raw = .ok c4valid ∧
      ∀ p ∈ c4store c4valid.query (min (c4valid.k.toNat * 3) 50), corpusInvariant p.1) ∧
    (∀ hit ∈ vector_search_tool c4store c4valid.query c4valid.k.toNat c4valid.document_type
        c4valid.appliance_type c4valid.include_score,
      (c4valid.document_type ≠ "all" → hit.document_type = some c4valid.document_type) ∧
      (c4valid.appliance_type ≠ "all" →
        hit.appliance_type = some c4valid.appliance_type
          ∨ hit.document_type = some "policy")) :=
  ⟨⟨by decide, by decide⟩,
    c4_filters_sound c4store c4raw c4valid (by decide) (by decide)⟩

open VectorTool in
/-- C2 counterexample.  Invoking the tool with the invalid query "ab"
(trimmed length 2 < 3) makes the schema layer raise a validation exception
across the tool boundary; the single-element ValidationError data record
the claim describes is not returned. -/
theorem c2_invalid_input_counterexample :
    invokeVectorSearchTool (emptyStore Nat) { query := "ab" }
      = .raised "query must be at least 3 characters long" ∧
    invokeVectorSearchTool (emptyStore Nat) { query := "ab" }
      ≠ .returns [.err "query must be at least 3 characters long" "ValidationError" "ab"] := by
  constructor
  · decide
  · decide

open VectorTool in
/-- C2 amended.  Every input rejected by a schema validator is raised as a
validation exception at the tool boundary, carrying the validator's
message, and the vector index is never touched: the outcome is the same
for every store. -/
theorem c2_validation_raises {α : Type} (store : VectorStore α) (raw : RawInput)
    (e : String) (he : parseInput raw = .error e) :
    invokeVectorSearchTool store raw = .raised e ∧
    ∀ store' : VectorStore α, invokeVectorSearchTool store' raw
      = invokeVectorSearchTool store raw := by
  constructor
  · simp [invokeVectorSearchTool, he]
  · intro store'
    simp [invokeVectorSearchTool, he]

open VectorTool in
/-- C2 amended witness: the concrete invalid input query = "ab" is raised
with the short-query message, independently of the store. -/
theorem c2_validation_raises_witness :
    (parseInput { query := "ab" } = .error "query must be at least 3 characters long") ∧
    (invokeVectorSearchTool (emptyStore Nat) { query := "ab" }
        = .raised "query must be at least 3 characters long" ∧
      ∀ store' : VectorStore Nat, invokeVectorSearchTool store' { query := "ab" }
        = invokeVectorSearchTool (emptyStore Nat) { query := "ab" }) :=
  ⟨by decide, c2_validation_raises (emptyStore Nat) { query := "ab" }
    "query must be at least 3 characters long" (by decide)⟩

namespace AgentCore

/-- One tool call as carried on an assistant message: name, args mapping,
and an id unique within the transcript (spec section 3). -/
structure ToolCallItem where
  name : String
  args : List (String × String)
  id : String
  deriving DecidableEq

/-- A LangChain transcript message: HumanMessage, AIMessage (with its
tool_calls list, possibly empty), or ToolMessage (with the name of the
tool and the back-reference tool_call_id). -/
inductive Msg where
  | human (content : String)
  | ai (content : String) (tool_calls : List ToolCallItem)
  | tool (name : String) (content : String) (tool_call_id : String)
  deriving DecidableEq

/-- The content attribute every message type carries. -/
def contentOf : Msg → String
  | .human c => c
  | .ai c _ => c
  | .tool _ c _ => c

/-- The tool_calls attribute: only AIMessage carries it; for the other
types `hasattr(msg, "tool_calls")` is false, modelled as the empty list. -/
def aiToolCalls : Msg → List ToolCallItem
  | .ai _ cs => cs
  | _ => []

/-- Python truthiness test `hasattr(msg, "tool_calls") and msg.tool_calls`
used by run_query (agent_config.py line 138) and by the logger
(tool_call_logger.py line 93). -/
def hasToolCalls (m : Msg) : Bool := !(aiToolCalls m).isEmpty

/-- Total number of individual ToolCall entries across a transcript. -/
def totalToolCallEntries : List Msg → Nat
  | [] => 0
  | m :: rest => (aiToolCalls m).length + totalToolCallEntries rest

/-- All ToolCall entries of a transcript in order. -/
def callItems : List Msg → List ToolCallItem
  | [] => []
  | m :: rest => aiToolCalls m ++ callItems rest

end AgentCore

namespace AgentLoop

/-- The agent system prompt (agent_config.py lines 22-38). -/
def SYSTEM_PROMPT : String :=
  "You are a PartSelect customer support agent for refrigerator and dishwasher parts.\n\nYour job: Answer user questions using the available tools. Loop and call tools until you have sufficient information to provide a complete answer.\n\nInstructions:\n- Call tools to gather information\n- After each tool call, read the response carefully\n- Think: Do I have enough information to answer?\n  - YES → Provide final answer with sources\n  - NO → Make another tool call\n- Combine tools when helpful (e.g., repair guide from vector + part details from SQL)\n- If results are empty or irrelevant, try different query or different tool\n- Max 10 tool calls - use them efficiently\n- Cite sources (URLs) in your final answer\n- Only refrigerator and dishwasher - reject other appliances\n\nThat" ++ squote ++ "s it. Start helping users."

/-- What create_partselect_agent hands to create_react_agent: the model
name, the registered tools and the prompt.  The temperature and api_key
parameters of the source are consumed by the LLM client constructor only
and touch no control flow, so they are not represented. -/
structure Agent where
  model : String
  tools : List String
  prompt : String
  deriving DecidableEq

/-- Shallow embedding of create_partselect_agent (agent_config.py lines
41-106).  Note that the max_iterations and verbose parameters are accepted
but never used by the source function: they are passed to neither
create_react_agent nor anything else, so the returned agent cannot depend
on them. -/
def create_partselect_agent (provider : String) (model_name : Option String)
    (max_iterations : Nat) (verbose : Bool) : Except String Agent :=
  let provider := if provider == "claude" then "anthropic" else provider
  match (match model_name with
    | some m => Except.ok m
    | none =>
        if provider == "openai" then Except.ok "gpt-4o"
        else if provider == "anthropic" then Except.ok "claude-sonnet-4-5-20250929"
        else Except.error ("Unknown provider: " ++ provider)) with
  | .error e => .error e
  | .ok model_name =>
      if provider == "openai" || provider == "anthropic" then
        .ok { model := model_name, tools := ["sql_search_tool", "vector_search_tool"],
              prompt := SYSTEM_PROMPT }
      else
        .error ("Unsupported provider: " ++ provider ++ ". Use " ++ squote ++ "openai"
          ++ squote ++ " or " ++ squote ++ "anthropic" ++ squote)

/-- One decision of the external text-generation collaborator: emit a
final answer or a batch of tool calls. -/
inductive Decision where
  | final (content : String)
  | toolCalls (calls : List AgentCore.ToolCallItem)

/-- The decision collaborator: maps the transcript to the next decision. -/
def Policy : Type := List AgentCore.Msg → Decision

/-- Tool execution: maps a tool call to the textual observation. -/
def ToolExec : Type := AgentCore.ToolCallItem → String

/-- Modelled from the spec: the ReAct control loop itself lives in the
external create_react_agent (the LangGraph prebuilt graph), not in this
repository, so its step semantics follow spec section 4.1 — alternate
Thinking (one decision per graph super-step) and Observing (one tool-batch
execution per graph super-step), terminating on a final answer — together
with the host graph runtime's recursion limit: every super-step consumes
one unit of the budget and an exhausted budget aborts the run (the
GraphRecursionError path).  Returns the transcript built so far and
whether the run completed. -/
def runGraph (policy : Policy) (exec : ToolExec) :
    Nat → List AgentCore.Msg → (List AgentCore.Msg × Bool)
  | 0, transcript => (transcript, false)
  | b + 1, transcript =>
    match policy transcript with
    | .final txt => (transcript ++ [.ai txt []], true)
    | .toolCalls cs =>
        let t2 := transcript ++ [.ai "" cs]
        if cs.isEmpty then (t2, true)
        else
          match b with
          | 0 => (t2, false)
          | b' + 1 =>
              runGraph policy exec b'
                (t2 ++ cs.map (fun c => .tool c.name (exec c) c.id))

/-- The recursion-limit error text raised by the graph runtime when the
step budget of 10 is exhausted. -/
def recursionLimitMsg : String :=
  "Recursion limit of 10 reached without hitting a stop condition."

/-- Final-answer extraction of run_query (agent_config.py lines 131-135):
the last message carrying non-empty content, scanning from the end. -/
def lastTextContent (msgs : List AgentCore.Msg) : String :=
  match msgs.reverse.find? (fun m => !(AgentCore.contentOf m).isEmpty) with
  | some m => AgentCore.contentOf m
  | none => ""

/-- The tool-call count computed by run_query (agent_config.py line 138):
the number of messages whose tool_calls attribute is truthy — it counts
messages, not individual ToolCall entries. -/
def countReportedToolCalls (msgs : List AgentCore.Msg) : Nat :=
  (msgs.filter AgentCore.hasToolCalls).length

/-- The dictionary run_query returns. -/
structure RunResult where
  output : String
  messages : List AgentCore.Msg
  tool_calls : Nat
  error : Option String := none
  deriving DecidableEq

/-- Shallow embedding of run_query (agent_config.py lines 109-151): invoke
the agent graph with the hard-coded recursion_limit of 10 (the
configuration dictionary literal at line 124 — independent of whatever
max_iterations the agent was created with), extract the final answer and
the tool-call count on success, and on any exception (including graph
recursion exhaustion) return the apologetic error result with empty
messages and a zero count. -/
def run_query (agent : Agent) (policy : Policy) (exec : ToolExec)
    (query : String) : RunResult :=
  let r := runGraph policy exec 10 [.human query]
  if r.2 then
    { output := lastTextContent r.1
      messages := r.1
      tool_calls := countReportedToolCalls r.1
      error := none }
  else
    { output := "Error executing query: " ++ recursionLimitMsg
      messages := []
      tool_calls := 0
      error := some recursionLimitMsg }

/-- The agent produced by the default claude configuration. -/
def partselectAgentDefault : Agent :=
  { model := "claude-sonnet-4-5-20250929"
    tools := ["sql_search_tool", "vector_search_tool"]
    prompt := SYSTEM_PROMPT }

/-- A decision collaborator that always asks for the same two tool calls,
one per registered tool. -/
def twoCallPolicy : Policy := fun _ =>
  .toolCalls [⟨"sql_search_tool", [("sql_query", "SELECT 1")], "call_a"⟩,
    ⟨"vector_search_tool", [("query", "ice maker")], "call_b"⟩]

/-- A decision collaborator that asks for two tool calls in its first
decision step and then answers. -/
def twoThenDonePolicy : Policy := fun t =>
  if t.length ≤ 1 then
    .toolCalls [⟨"sql_search_tool", [("sql_query", "SELECT 1")], "call_a"⟩,
      ⟨"vector_search_tool", [("query", "ice maker")], "call_b"⟩]
  else .final "combined answer"

/-- Tool execution stub returning a fixed observation. -/
def constExec : ToolExec := fun _ => "ok"

end AgentLoop

open AgentLoop in
/-- C3.  The configured max_iterations bound is dropped: an agent created
with max_iterations = 1 still admits a run that executes 10 individual
tool calls before the hard-coded recursion limit of 10 graph super-steps
aborts it, and that aborted run surfaces as the apologetic error result
with a zero tool-call count rather than a partial answer. -/
theorem c3_max_iterations_not_enforced :
    create_partselect_agent "claude" none 1 true = .ok partselectAgentDefault ∧
    AgentCore.totalToolCallEntries
      (runGraph twoCallPolicy constExec 10 [.human "fix my fridge"]).1 = 10 ∧
    (runGraph twoCallPolicy constExec 10 [.human "fix my fridge"]).2 = false ∧
    run_query partselectAgentDefault twoCallPolicy constExec "fix my fridge"
      = { output := "Error executing query: " ++ recursionLimitMsg
          messages := []
          tool_calls := 0
          error := some recursionLimitMsg } ∧
    10 > 1 := by
  refine ⟨by rfl, by rfl, by rfl, by rfl, by decide⟩

open AgentLoop in
/-- C7 counterexample.  A run in which the single decision step emits two
ToolCalls: run_query reports tool_calls = 1 (it counts messages bearing
tool calls), while the transcript contains 2 individual ToolCall
entries. -/
theorem c7_count_counterexample :
    (run_query partselectAgentDefault twoThenDonePolicy constExec "q").tool_calls = 1 ∧
    AgentCore.totalToolCallEntries
      (run_query partselectAgentDefault twoThenDonePolicy constExec "q").messages = 2 ∧
    (run_query partselectAgentDefault twoThenDonePolicy constExec "q").tool_calls
      ≠ AgentCore.totalToolCallEntries
          (run_query partselectAgentDefault twoThenDonePolicy constExec "q").messages := by
  refine ⟨by rfl, by rfl, by decide⟩

namespace AgentCore

/-- hasToolCalls is exactly a non-zero entry count. -/
lemma hasToolCalls_iff (m : Msg) :
    hasToolCalls m = true ↔ (aiToolCalls m).length ≠ 0 := by
  unfold hasToolCalls
  cases hcs : aiToolCalls m with
  | nil => simp
  | cons a t => simp

end AgentCore

open AgentLoop AgentCore in
/-- C7 amended.  The count run_query reports is the number of assistant
messages carrying at least one ToolCall, so it never exceeds the number of
individual ToolCall entries, and the two agree exactly when every
tool-carrying message holds a single call. -/
theorem c7_count_is_message_count (msgs : List AgentCore.Msg) :
    countReportedToolCalls msgs ≤ totalToolCallEntries msgs ∧
    (countReportedToolCalls msgs = totalToolCallEntries msgs ↔
      ∀ m ∈ msgs, hasToolCalls m = true → (aiToolCalls m).length = 1) := by
  induction msgs with
  | nil =>
      constructor
      · exact Nat.le_refl 0
      · simp [countReportedToolCalls, totalToolCallEntries]
  | cons m t ih =>
      have htot : totalToolCallEntries (m :: t)
          = (aiToolCalls m).length + totalToolCallEntries t := rfl
      obtain ⟨ihle, ihiff⟩ := ih
      by_cases hm : hasToolCalls m = true
      · have hlen : (aiToolCalls m).length ≠ 0 := (hasToolCalls_iff m).mp hm
        have hcount : countReportedToolCalls (m :: t) = countReportedToolCalls t + 1 := by
          unfold countReportedToolCalls
          rw [List.filter_cons_of_pos hm]
          rfl
        constructor
        · rw [hcount, htot]
          omega
        · rw [hcount, htot]
          constructor
          · intro heq
            have h1 : (aiToolCalls m).length = 1 ∧
                countReportedToolCalls t = totalToolCallEntries t := by omega
            intro x h
            rcases List.mem_cons.mp h with rfl | hmem
            · intro _; exact h1.1
            · exact ihiff.mp h1.2 x hmem
          · intro hall
            have h1 : (aiToolCalls m).length = 1 :=
              hall m (List.mem_cons_self _ _) hm
            have h2 : countReportedToolCalls t = totalToolCallEntries t :=
              ihiff.mpr (fun x hmem => hall x (List.mem_cons_of_mem m hmem))
            omega
      · have hmf : hasToolCalls m = false := by
          cases hb : hasToolCalls m
          · rfl
          · exact absurd hb hm
        have hlen : (aiToolCalls m).length = 0 := by
          by_contra hne
          exact hm ((hasToolCalls_iff m).mpr hne)
        have hcount : countReportedToolCalls (m :: t) = countReportedToolCalls t := by
          unfold countReportedToolCalls
          rw [List.filter_cons_of_neg (by simp [hmf])]
        constructor
        · rw [hcount, htot, hlen]
          omega
        · rw [hcount, htot, hlen]
          constructor
          · intro heq x h
            rcases List.mem_cons.mp h with rfl | hmem
            · intro hx; exact absurd hx hm
            · exact ihiff.mp (by omega) x hmem
          · intro hall
            have h2 : countReportedToolCalls t = totalToolCallEntries t :=
              ihiff.mpr (fun x hmem => hall x (List.mem_cons_of_mem m hmem))
            omega

/-- Python string slicing s[:n] by characters. -/
def pyTake (s : String) (n : Nat) : String := ⟨s.data.take n⟩

namespace ToolLogger

/-- One reconstructed record of the audit trail, mirroring the dictionaries
built by _extract_tool_calls (tool_call_logger.py lines 96-131): the keys a
given record shape never sets are Option fields left none. -/
structure LogRec where
  type : String
  tool_name : String
  args : Option (List (String × String)) := none
  id : Option String := none
  result_length : Option Nat := none
  result_preview : Option String := none
  tool_call_id : Option String := none
  deriving DecidableEq

/-- The tool_call record built for one ToolCall entry (tool_call_logger.py
lines 96-110; the dict and object formats carry the same three values). -/
def toolCallRec (c : AgentCore.ToolCallItem) : LogRec :=
  { type := "tool_call", tool_name := c.name, args := some c.args, id := some c.id }

/-- The standalone tool_result record appended when no earlier tool_call
matches (tool_call_logger.py lines 116-121, 129-131). -/
def toolResultRec (name : String) (len : Nat) (tid : String) : LogRec :=
  { type := "tool_result", tool_name := name, result_length := some len,
    tool_call_id := some tid }

/-- The matching loop of tool_call_logger.py lines 124-128: walk the
accumulated records, attach length and preview to the FIRST tool_call
record bearing the result's id and stop (the `break`); produce none when
no record matches (the for-else). -/
def mergeFirst (tid : String) (len : Nat) (preview : String) :
    List LogRec → Option (List LogRec)
  | [] => none
  | r :: rest =>
      if r.type == "tool_call" && r.id == some tid then
        some ({ r with result_length := some len, result_preview := some preview } :: rest)
      else
        match mergeFirst tid len preview rest with
        | some rest' => some (r :: rest')
        | none => none

/-- Processing of one transcript message by _extract_tool_calls: assistant
messages append one tool_call record per ToolCall (an empty tool_calls
list is falsy and appends nothing, which coincides with mapping it);
tool messages either merge into the first matching earlier call record or
are appended standalone. -/
def extractStep (acc : List LogRec) (m : AgentCore.Msg) : List LogRec :=
  match m with
  | .human _ => acc
  | .ai _ calls => acc ++ calls.map toolCallRec
  | .tool name content tid =>
      match mergeFirst tid content.length (pyTake content 200) acc with
      | some acc' => acc'
      | none => acc ++ [toolResultRec name content.length tid]

/-- The fold over the transcript. -/
def extractGo (acc : List LogRec) : List AgentCore.Msg → List LogRec
  | [] => acc
  | m :: rest => extractGo (extractStep acc m) rest

/-- Shallow embedding of ToolCallLogger._extract_tool_calls
(tool_call_logger.py lines 85-133). -/
def extract_tool_calls (messages : List AgentCore.Msg) : List LogRec :=
  extractGo [] messages

/-- A timestamp as the logger consumes it: datetime.now() rendered once as
isoformat (stored inside records) and once by strftime as the compact file
tag; the two datetime.now() calls inside one log_message are close enough
to be modelled as a single instant. -/
structure Timestamp where
  iso : String
  fileTag : String
  deriving DecidableEq

/-- One logged exchange (tool_call_logger.py lines 70-77). -/
structure Exchange where
  timestamp : String
  user_message : String
  agent_response : String
  tool_calls_count : Nat
  tool_calls : List LogRec
  total_messages_in_conversation : Nat
  deriving DecidableEq

/-- The session summary (tool_call_logger.py lines 169-176).  The float
field avg_tool_calls_per_message is determined by total_tool_calls and
total_messages and is not separately represented. -/
structure Summary where
  session_id : String
  total_messages : Nat
  total_tool_calls : Nat
  tool_usage : List (String × Nat)
  created_at : String
  deriving DecidableEq

/-- A per-session record as held in memory and as serialized to a file
(tool_call_logger.py lines 36-40, 182-183). -/
structure SessionData where
  session_id : String
  created_at : String
  messages : List Exchange
  summary : Option Summary := none
  ended_at : Option String := none
  deriving DecidableEq

/-- Python dict lookup on a string-keyed mapping held as an ordered
association list. -/
def getAssoc {β : Type} : List (String × β) → String → Option β
  | [], _ => none
  | p :: rest, k => if p.1 == k then some p.2 else getAssoc rest k

/-- Python dict assignment: update in place when the key exists, append
otherwise (dicts preserve insertion order). -/
def setAssoc {β : Type} : List (String × β) → String → β → List (String × β)
  | [], k, v => [(k, v)]
  | p :: rest, k, v => if p.1 == k then (k, v) :: rest else p :: setAssoc rest k v

/-- The logger state: the in-memory sessions dict plus the durable log
directory, a mapping from file name to the JSON-serialized session record
last written under that name (open/json.dump replaces the whole file). -/
structure LoggerState where
  sessions : List (String × SessionData) := []
  fs : List (String × SessionData) := []
  deriving DecidableEq

/-- create_session (tool_call_logger.py lines 31-42) for an explicit id. -/
def create_session (st : LoggerState) (now : Timestamp) (sid : String) : LoggerState :=
  let sd : SessionData := { session_id := sid, created_at := now.iso, messages := [] }
  { st with sessions := setAssoc st.sessions sid sd }

/-- The file name _save_session builds (tool_call_logger.py line 143):
it embeds the current strftime tag, so saves in different seconds go to
different files. -/
def sessionFilename (sid : String) (now : Timestamp) : String :=
  "session_" ++ sid ++ "_" ++ now.fileTag ++ ".json"

/-- Shallow embedding of _save_session (tool_call_logger.py lines
135-148): serialize the full current session record into the
timestamp-tagged file. -/
def save_session (st : LoggerState) (now : Timestamp) (sid : String) : LoggerState :=
  match getAssoc st.sessions sid with
  | none => st
  | some sd => { st with fs := setAssoc st.fs (sessionFilename sid now) sd }

/-- The storage truncation applied to agent_response (tool_call_logger.py
line 73): responses longer than 200 characters keep their first 200
characters plus an ellipsis. -/
def truncForStorage (ar : String) : String :=
  if ar.length > 200 then pyTake ar 200 ++ "..." else ar

/-- Shallow embedding of log_message (tool_call_logger.py lines 44-83):
create the session if unseen, reconstruct the tool-call records, append
the new exchange to the session, and save the session to a file
immediately. -/
def log_message (st : LoggerState) (now : Timestamp)
    (session_id user_message agent_response : String)
    (messages : List AgentCore.Msg) (tool_calls_count : Nat) : LoggerState :=
  let st :=
    if (getAssoc st.sessions session_id).isNone then create_session st now session_id
    else st
  let tool_calls := extract_tool_calls messages
  let entry : Exchange :=
    { timestamp := now.iso
      user_message := user_message
      agent_response := truncForStorage agent_response
      tool_calls_count := tool_calls_count
      tool_calls := tool_calls
      total_messages_in_conversation := messages.length }
  let st :=
    match getAssoc st.sessions session_id with
    | some sd =>
        let sd' := { sd with messages := sd.messages ++ [entry] }
        { st with sessions := setAssoc st.sessions session_id sd' }
    | none => st
  save_session st now session_id

/-- Shallow embedding of get_session_summary (tool_call_logger.py lines
150-176); Python returns an empty dict for an unknown session, modelled
as none. -/
def get_session_summary (st : LoggerState) (sid : String) : Option Summary :=
  match getAssoc st.sessions sid with
  | none => none
  | some sd =>
      let msgs := sd.messages
      some
        { session_id := sid
          total_messages := msgs.length
          total_tool_calls := (msgs.map (fun m => m.tool_calls_count)).foldl (· + ·) 0
          tool_usage := msgs.foldl (fun u msg =>
            msg.tool_calls.foldl (fun u tc =>
              setAssoc u tc.tool_name ((getAssoc u tc.tool_name).getD 0 + 1)) u) []
          created_at := sd.created_at }

/-- Shallow embedding of end_session (tool_call_logger.py lines 178-189):
attach summary and ended_at, save one final time, drop the live session. -/
def end_session (st : LoggerState) (now : Timestamp) (sid : String) : LoggerState :=
  match getAssoc st.sessions sid with
  | none => st
  | some sd =>
      let sd' := { sd with summary := get_session_summary st sid, ended_at := some now.iso }
      let st' := { st with sessions := setAssoc st.sessions sid sd' }
      let st'' := save_session st' now sid
      { st'' with sessions := st''.sessions.filter (fun p => !(p.1 == sid)) }

/-- Looking up the key just set yields the new value. -/
lemma getAssoc_setAssoc {β : Type} (m : List (String × β)) (k : String) (v : β) :
    getAssoc (setAssoc m k v) k = some v := by
  induction m with
  | nil => simp [getAssoc, setAssoc]
  | cons p rest ih =>
      by_cases hp : (p.1 == k) = true
      · simp [getAssoc, setAssoc, hp]
      · simp [getAssoc, setAssoc, hp, ih]

/-- Saving never changes the in-memory sessions dict. -/
lemma save_session_sessions (st : LoggerState) (now : Timestamp) (sid : String) :
    (save_session st now sid).sessions = st.sessions := by
  unfold save_session
  cases getAssoc st.sessions sid <;> rfl

/-- After the create-if-missing step of log_message the session exists and
its exchange list is exactly the history held for it before the call. -/
lemma log_message_session_exists (st : LoggerState) (now : Timestamp) (sid : String) :
    ∃ sd0 : SessionData,
      getAssoc (if (getAssoc st.sessions sid).isNone
          then create_session st now sid else st).sessions sid = some sd0 ∧
      sd0.messages = (getAssoc st.sessions sid).elim [] (fun s => s.messages) := by
  cases hg : getAssoc st.sessions sid with
  | none =>
      refine ⟨{ session_id := sid, created_at := now.iso, messages := [] }, ?_, rfl⟩
      simp [hg, create_session, getAssoc_setAssoc]
  | some sd => exact ⟨sd, by simp [hg], rfl⟩

end ToolLogger

open ToolLogger in
/-- C10.  After any log_message call, the exchange appended to the session
stores the agent response unchanged when it has at most 200 characters and
its first 200 characters followed by "..." otherwise, while the stored
user message is always the original string. -/
theorem c10_response_truncation (st : LoggerState) (now : Timestamp)
    (sid um ar : String) (msgs : List AgentCore.Msg) (cnt : Nat) :
    ∃ sd, getAssoc (log_message st now sid um ar msgs cnt).sessions sid = some sd ∧
      ∃ e, sd.messages.getLast? = some e ∧
        e.agent_response = (if ar.length ≤ 200 then ar else pyTake ar 200 ++ "...") ∧
        e.user_message = um := by
  obtain ⟨sd0, hsd0, hhist⟩ := log_message_session_exists st now sid
  simp only [log_message, hsd0, save_session_sessions, getAssoc_setAssoc]
  refine ⟨_, rfl, _, List.getLast?_concat _, ?_, rfl⟩
  show truncForStorage ar = if ar.length ≤ 200 then ar else pyTake ar 200 ++ "..."
  unfold truncForStorage
  by_cases h : ar.length ≤ 200
  · rw [if_neg (by omega), if_pos h]
  · rw [if_pos (by omega), if_neg h]

namespace ToolLogger

/-- A concrete timestamp for the first exchange. -/
def ts1 : Timestamp := { iso := "2025-01-01T10:00:00", fileTag := "20250101_100000" }

/-- A concrete timestamp for the second exchange, five seconds later. -/
def ts2 : Timestamp := { iso := "2025-01-01T10:00:05", fileTag := "20250101_100005" }

/-- Logger state after two exchanges of session s1 logged at ts1 and ts2. -/
def c8state : LoggerState :=
  log_message
    (log_message {} ts1 "s1" "why is my fridge warm" "check the condenser coils" [] 0)
    ts2 "s1" "and the ice maker" "replace the inlet valve" [] 0

end ToolLogger

open ToolLogger in
/-- C8 counterexample.  Two exchanges of one session logged in different
seconds leave two durable artifacts for that session, not one overwritten
artifact: the file names embed the save timestamp.  (The second artifact
does hold both exchanges, the first only the first.) -/
theorem c8_single_artifact_counterexample :
    c8state.fs.map (fun p => p.1)
      = [sessionFilename "s1" ts1, sessionFilename "s1" ts2] ∧
    sessionFilename "s1" ts1 ≠ sessionFilename "s1" ts2 ∧
    (getAssoc c8state.fs (sessionFilename "s1" ts1)).map (fun sd => sd.messages.length)
      = some 1 ∧
    (getAssoc c8state.fs (sessionFilename "s1" ts2)).map (fun sd => sd.messages.length)
      = some 2 := by
  refine ⟨by rfl, by decide, by rfl, by rfl⟩

open ToolLogger in
/-- C8 amended.  Every log_message call writes the complete per-session
record — all previously held exchanges plus the new one — into the
artifact named with the session id and the current timestamp, so the
artifact written last always contains the full history; but because the
file name embeds the timestamp, saves in different seconds create distinct
artifacts instead of overwriting a single one. -/
theorem c8_full_history_written (st : LoggerState) (now : Timestamp)
    (sid um ar : String) (msgs : List AgentCore.Msg) (cnt : Nat) :
    ∃ sd, getAssoc (log_message st now sid um ar msgs cnt).fs (sessionFilename sid now)
        = some sd ∧
      ∃ e, sd.messages
        = (getAssoc st.sessions sid).elim [] (fun s => s.messages) ++ [e] := by
  obtain ⟨sd0, hsd0, hhist⟩ := log_message_session_exists st now sid
  simp only [log_message, hsd0, save_session, getAssoc_setAssoc]
  refine ⟨_, rfl,
    { timestamp := now.iso, user_message := um, agent_response := truncForStorage ar,
      tool_calls_count := cnt, tool_calls := extract_tool_calls msgs,
      total_messages_in_conversation := msgs.length }, ?_⟩
  rw [hhist]

namespace ToolLogger

/-- The tool-result messages of a transcript in order, each as the triple
(tool_call_id, content length, content preview) the logger attaches. -/
def toolResults : List AgentCore.Msg → List (String × Nat × String)
  | [] => []
  | AgentCore.Msg.tool _ content tid :: rest =>
      (tid, content.length, pyTake content 200) :: toolResults rest
  | AgentCore.Msg.ai _ _ :: rest => toolResults rest
  | AgentCore.Msg.human _ :: rest => toolResults rest

/-- A tool_call record merged with the length and preview of a result. -/
def mergedRec (c : AgentCore.ToolCallItem) (res : String × Nat × String) : LogRec :=
  { type := "tool_call", tool_name := c.name, args := some c.args, id := some c.id,
    result_length := some res.2.1, result_preview := some res.2.2 }

/-- The audit record list determined by a call list and a result list:
one record per call, merged with the first result bearing its id when one
exists. -/
def buildAcc (cs : List AgentCore.ToolCallItem) (rs : List (String × Nat × String)) :
    List LogRec :=
  cs.map (fun c =>
    match rs.find? (fun r => r.1 == c.id) with
    | some res => mergedRec c res
    | none => toolCallRec c)

/-- Does every tool message refer to a call appearing earlier in the
transcript (given the ids already seen)? -/
def resultsMatchEarlier (seen : List String) : List AgentCore.Msg → Bool
  | [] => true
  | AgentCore.Msg.ai _ cs :: rest =>
      resultsMatchEarlier (seen ++ cs.map (fun c => c.id)) rest
  | AgentCore.Msg.tool _ _ tid :: rest =>
      seen.contains tid && resultsMatchEarlier seen rest
  | AgentCore.Msg.human _ :: rest => resultsMatchEarlier seen rest

/-- Appending results that match none of the calls leaves buildAcc
unchanged. -/
lemma buildAcc_snoc_result_skip (cs : List AgentCore.ToolCallItem)
    (rs : List (String × Nat × String)) (nr : String × Nat × String)
    (h : ∀ c ∈ cs, c.id ≠ nr.1) :
    buildAcc cs (rs ++ [nr]) = buildAcc cs rs := by
  unfold buildAcc
  refine List.map_congr_left (fun c hc => ?_)
  have hbeq : (nr.1 == c.id) = false := by
    rw [beq_eq_false_iff_ne]
    exact fun hq => (h c hc) hq.symm
  have hone : List.find? (fun r => r.1 == c.id) [nr] = none := by
    simp [List.find?, hbeq]
  rw [List.find?_append, hone, Option.or_none]

/-- Fresh calls (ids matched by no accumulated result) extend buildAcc by
their plain unmerged records. -/
lemma buildAcc_append_calls (cs0 cs : List AgentCore.ToolCallItem)
    (rs : List (String × Nat × String))
    (h : ∀ c ∈ cs, ∀ r ∈ rs, r.1 ≠ c.id) :
    buildAcc (cs0 ++ cs) rs = buildAcc cs0 rs ++ cs.map toolCallRec := by
  unfold buildAcc
  rw [List.map_append]
  congr 1
  refine List.map_congr_left (fun c hc => ?_)
  have hfind : List.find? (fun r => r.1 == c.id) rs = none :=
    List.find?_eq_none.mpr (fun r hr => by simp [h c hc r hr])
  rw [hfind]

/-- Merging a result whose id names exactly one accumulated call updates
that call record in place. -/
lemma mergeFirst_buildAcc (tid : String) (len : Nat) (prev : String) :
    ∀ (cs : List AgentCore.ToolCallItem) (rs : List (String × Nat × String)),
      (cs.map (fun c => c.id)).Nodup →
      tid ∈ cs.map (fun c => c.id) →
      (∀ r ∈ rs, r.1 ≠ tid) →
      mergeFirst tid len prev (buildAcc cs rs)
        = some (buildAcc cs (rs ++ [(tid, len, prev)])) := by
  intro cs
  induction cs with
  | nil => intro rs _ htid _; simp at htid
  | cons c cs ih =>
      intro rs hnd htid hfresh
      have hnd' : (cs.map (fun c => c.id)).Nodup := (List.nodup_cons.mp hnd).2
      have hcnotin : c.id ∉ cs.map (fun c => c.id) := (List.nodup_cons.mp hnd).1
      by_cases hc : c.id = tid
      · subst hc
        have hfind : List.find? (fun r => r.1 == c.id) rs = none :=
          List.find?_eq_none.mpr (fun r hr => by simp [hfresh r hr])
        have hone : List.find? (fun r => r.1 == c.id) [(c.id, len, prev)]
            = some (c.id, len, prev) := by
          simp [List.find?]
        have hfind2 : List.find? (fun r => r.1 == c.id) (rs ++ [(c.id, len, prev)])
            = some (c.id, len, prev) := by
          rw [List.find?_append, hfind, hone]
          rfl
        have hhead : buildAcc (c :: cs) rs = toolCallRec c :: buildAcc cs rs := by
          unfold buildAcc
          rw [List.map_cons, hfind]
        have htail : buildAcc cs (rs ++ [(c.id, len, prev)]) = buildAcc cs rs := by
          refine buildAcc_snoc_result_skip cs rs _ (fun x hx hcc => ?_)
          have hcc2 : x.id = c.id := hcc
          exact hcnotin (hcc2 ▸ List.mem_map_of_mem (fun y => y.id) hx)
        have hhead2 : buildAcc (c :: cs) (rs ++ [(c.id, len, prev)])
            = mergedRec c (c.id, len, prev) :: buildAcc cs (rs ++ [(c.id, len, prev)]) := by
          unfold buildAcc
          rw [List.map_cons, hfind2]
        rw [hhead, hhead2, htail]
        unfold mergeFirst
        simp [toolCallRec, mergedRec]
      · have htid2 : tid ∈ cs.map (fun c => c.id) := by
          rcases List.mem_cons.mp htid with h | h
          · exact absurd h.symm hc
          · exact h
        have hrec := ih rs hnd' htid2 hfresh
        have hbeq : (tid == c.id) = false := by
          rw [beq_eq_false_iff_ne]
          exact fun hq => hc hq.symm
        have hone : List.find? (fun r => r.1 == c.id) [(tid, len, prev)] = none := by
          simp [List.find?, hbeq]
        have hheadeq : ∀ rs2, buildAcc (c :: cs) rs2
            = (match List.find? (fun r => r.1 == c.id) rs2 with
                | some res => mergedRec c res
                | none => toolCallRec c) :: buildAcc cs rs2 := by
          intro rs2
          unfold buildAcc
          rw [List.map_cons]
        rw [hheadeq, hheadeq]
        have hfindeq : List.find? (fun r => r.1 == c.id) (rs ++ [(tid, len, prev)])
            = List.find? (fun r => r.1 == c.id) rs := by
          rw [List.find?_append, hone, Option.or_none]
        rw [hfindeq]
        unfold mergeFirst
        cases hfind : List.find? (fun r => r.1 == c.id) rs with
        | some res =>
            simp only [hfind]
            have hg : ((mergedRec c res).type == "tool_call"
                && (mergedRec c res).id == some tid) = false := by
              simp [mergedRec, hc]
            rw [hg]
            simp [hrec]
        | none =>
            simp only [hfind]
            have hg : ((toolCallRec c).type == "tool_call"
                && (toolCallRec c).id == some tid) = false := by
              simp [toolCallRec, hc]
            rw [hg]
            simp [hrec]

end ToolLogger

namespace ToolLogger

/-- The fold over a transcript processed in two stages. -/
lemma extractGo_append (l1 l2 : List AgentCore.Msg) :
    ∀ acc, extractGo acc (l1 ++ l2) = extractGo (extractGo acc l1) l2 := by
  induction l1 with
  | nil => intro acc; rfl
  | cons m t ih => intro acc; exact ih (extractStep acc m)

/-- When no accumulated record has the result's id, the matching loop
falls through to its for-else branch. -/
lemma mergeFirst_eq_none (tid : String) (len : Nat) (prev : String) :
    ∀ acc : List LogRec, (∀ r ∈ acc, r.id ≠ some tid) →
      mergeFirst tid len prev acc = none := by
  intro acc
  induction acc with
  | nil => intro _; rfl
  | cons r rest ih =>
      intro h
      have hbeq : (r.id == some tid) = false :=
        beq_eq_false_iff_ne.mpr (h r (List.mem_cons_self _ _))
      have hg : (r.type == "tool_call" && r.id == some tid) = false := by
        rw [hbeq, Bool.and_false]
      simp [mergeFirst, hg, ih (fun x hx => h x (List.mem_cons_of_mem r hx))]

/-- A successful merge changes lengths of nothing and rewrites no id:
the id column of the accumulated records is preserved. -/
lemma mergeFirst_ids (tid : String) (len : Nat) (prev : String) :
    ∀ (acc acc' : List LogRec), mergeFirst tid len prev acc = some acc' →
      acc'.map (fun r => r.id) = acc.map (fun r => r.id) := by
  intro acc
  induction acc with
  | nil => intro acc' h; simp [mergeFirst] at h
  | cons r rest ih =>
      intro acc' h
      by_cases hg : (r.type == "tool_call" && r.id == some tid) = true
      · have h' : some ({ r with result_length := some len, result_preview := some prev }
            :: rest) = some acc' := by
          simpa [mergeFirst, hg] using h
        have : acc' = { r with result_length := some len, result_preview := some prev }
            :: rest := (Option.some.injEq _ _ ▸ h').symm
        subst this
        rfl
      · have hgf : (r.type == "tool_call" && r.id == some tid) = false :=
          Bool.not_eq_true _ ▸ hg
        cases hrec : mergeFirst tid len prev rest with
        | none => simp [mergeFirst, hgf, hrec] at h
        | some rest' =>
            have h' : some (r :: rest') = some acc' := by
              simpa [mergeFirst, hgf, hrec] using h
            have : acc' = r :: rest' := (Option.some.injEq _ _ ▸ h').symm
            subst this
            simp [ih rest' hrec]

/-- Every record the extraction produces either descends from the starting
accumulator, is an id-less standalone result record, or carries the id of
some ToolCall of the processed transcript. -/
lemma extract_record_ids :
    ∀ (future : List AgentCore.Msg) (acc : List LogRec) (r : LogRec),
      r ∈ extractGo acc future →
      (∃ r0 ∈ acc, r.id = r0.id) ∨ r.id = none ∨
        ∃ c ∈ AgentCore.callItems future, r.id = some c.id := by
  intro future
  induction future with
  | nil => intro acc r h; exact Or.inl ⟨r, h, rfl⟩
  | cons m rest ih =>
      intro acc r h
      rcases ih (extractStep acc m) r h with ⟨r0, hr0, heq⟩ | hnone | ⟨c, hc, heq⟩
      · cases m with
        | human c => exact Or.inl ⟨r0, hr0, heq⟩
        | ai c cs =>
            rcases List.mem_append.mp hr0 with h1 | h1
            · exact Or.inl ⟨r0, h1, heq⟩
            · obtain ⟨x, hx, rfl⟩ := List.mem_map.mp h1
              exact Or.inr (Or.inr ⟨x, List.mem_append_left _ hx, heq⟩)
        | tool name content tid =>
            cases hm : mergeFirst tid content.length (pyTake content 200) acc with
            | some acc2 =>
                have hr0' : r0 ∈ acc2 := by
                  simpa [extractStep, hm] using hr0
                have hids := mergeFirst_ids _ _ _ acc acc2 hm
                have hmem : r0.id ∈ acc.map (fun x => x.id) := by
                  rw [← hids]
                  exact List.mem_map_of_mem _ hr0'
                obtain ⟨r1, hr1, hid1⟩ := List.mem_map.mp hmem
                exact Or.inl ⟨r1, hr1, heq.trans hid1.symm⟩
            | none =>
                have hr0' : r0 ∈ acc ++ [toolResultRec name content.length tid] := by
                  simpa [extractStep, hm] using hr0
                rcases List.mem_append.mp hr0' with h1 | h1
                · exact Or.inl ⟨r0, h1, heq⟩
                · have hr0e : r0 = toolResultRec name content.length tid := by
                    simpa using h1
                  refine Or.inr (Or.inl ?_)
                  rw [heq, hr0e]
                  rfl
      · exact Or.inr (Or.inl hnone)
      · exact Or.inr (Or.inr ⟨c, List.mem_append_right _ hc, heq⟩)

/-- The workhorse: over a well-paired remainder of the transcript, the
extraction fold maps the abstract record description forward. -/
lemma extractGo_spec :
    ∀ (future : List AgentCore.Msg) (cs0 : List AgentCore.ToolCallItem)
      (rs0 : List (String × Nat × String)),
      (cs0.map (fun c => c.id)
        ++ (AgentCore.callItems future).map (fun c => c.id)).Nodup →
      (rs0.map (fun r => r.1) ++ (toolResults future).map (fun r => r.1)).Nodup →
      (∀ r ∈ rs0, r.1 ∈ cs0.map (fun c => c.id)) →
      resultsMatchEarlier (cs0.map (fun c => c.id)) future = true →
      extractGo (buildAcc cs0 rs0) future
        = buildAcc (cs0 ++ AgentCore.callItems future) (rs0 ++ toolResults future) := by
  intro future
  induction future with
  | nil =>
      intro cs0 rs0 _ _ _ _
      simp [extractGo, AgentCore.callItems, toolResults]
  | cons m rest ih =>
      intro cs0 rs0 h1 h2 hinv h3
      cases m with
      | human c => exact ih cs0 rs0 h1 h2 hinv h3
      | ai c cs =>
          have h1m : (cs0.map (fun x => x.id) ++ (cs.map (fun x => x.id)
              ++ (AgentCore.callItems rest).map (fun x => x.id))).Nodup := by
            simpa [AgentCore.callItems, AgentCore.aiToolCalls] using h1
          have hdisj : List.Disjoint (cs0.map (fun x => x.id))
              (cs.map (fun x => x.id) ++ (AgentCore.callItems rest).map (fun x => x.id)) :=
            (List.nodup_append.mp h1m).2.2
          have hfresh : ∀ x ∈ cs, ∀ r ∈ rs0, r.1 ≠ x.id := by
            intro x hx r hr heq
            exact hdisj (heq ▸ hinv r hr)
              (List.mem_append_left _ (List.mem_map_of_mem _ hx))
          have hstep : extractGo (buildAcc cs0 rs0) (AgentCore.Msg.ai c cs :: rest)
              = extractGo (buildAcc (cs0 ++ cs) rs0) rest := by
            show extractGo (buildAcc cs0 rs0 ++ cs.map toolCallRec) rest = _
            rw [← buildAcc_append_calls cs0 cs rs0 (fun x hx r hr => hfresh x hx r hr)]
          rw [hstep]
          have hassoc : cs0 ++ AgentCore.callItems (AgentCore.Msg.ai c cs :: rest)
              = (cs0 ++ cs) ++ AgentCore.callItems rest := by
            show cs0 ++ (cs ++ AgentCore.callItems rest) = _
            rw [List.append_assoc]
          rw [hassoc]
          have h1' : ((cs0 ++ cs).map (fun x => x.id)
              ++ (AgentCore.callItems rest).map (fun x => x.id)).Nodup := by
            simpa using h1m
          have hinv' : ∀ r ∈ rs0, r.1 ∈ (cs0 ++ cs).map (fun x => x.id) := by
            intro r hr
            rw [List.map_append]
            exact List.mem_append_left _ (hinv r hr)
          have h3' : resultsMatchEarlier ((cs0 ++ cs).map (fun x => x.id)) rest = true := by
            rw [List.map_append]
            exact h3
          exact ih (cs0 ++ cs) rs0 h1' h2 hinv' h3'
      | tool name content tid =>
          have h3p : (List.contains (cs0.map (fun x => x.id)) tid
              && resultsMatchEarlier (cs0.map (fun x => x.id)) rest) = true := h3
          have htid : tid ∈ cs0.map (fun x => x.id) := by
            have hh := (Bool.and_eq_true _ _).mp h3p
            simpa using hh.1
          have h3r : resultsMatchEarlier (cs0.map (fun x => x.id)) rest = true :=
            ((Bool.and_eq_true _ _).mp h3p).2
          have h2m : (rs0.map (fun r => r.1)
              ++ (tid :: (toolResults rest).map (fun r => r.1))).Nodup := by
            simpa [toolResults] using h2
          have hfresh : ∀ r ∈ rs0, r.1 ≠ tid := by
            intro r hr heq
            exact (List.nodup_append.mp h2m).2.2 (List.mem_map_of_mem _ hr)
              (heq ▸ List.mem_cons_self _ _)
          have hnd0 : (cs0.map (fun x => x.id)).Nodup := (List.nodup_append.mp h1).1
          have hmerge := mergeFirst_buildAcc tid content.length (pyTake content 200)
            cs0 rs0 hnd0 htid hfresh
          have hstep : extractGo (buildAcc cs0 rs0)
                (AgentCore.Msg.tool name content tid :: rest)
              = extractGo (buildAcc cs0
                  (rs0 ++ [(tid, content.length, pyTake content 200)])) rest := by
            show extractGo (extractStep (buildAcc cs0 rs0)
              (AgentCore.Msg.tool name content tid)) rest = _
            simp only [extractStep]
            rw [hmerge]
          rw [hstep]
          have hassoc : rs0 ++ toolResults (AgentCore.Msg.tool name content tid :: rest)
              = (rs0 ++ [(tid, content.length, pyTake content 200)]) ++ toolResults rest := by
            show rs0 ++ ((tid, content.length, pyTake content 200) :: toolResults rest) = _
            rw [List.append_cons]
          rw [hassoc]
          have h1' : (cs0.map (fun x => x.id)
              ++ (AgentCore.callItems rest).map (fun x => x.id)).Nodup := h1
          have h2' : ((rs0 ++ [(tid, content.length, pyTake content 200)]).map (fun r => r.1)
              ++ (toolResults rest).map (fun r => r.1)).Nodup := by
            simpa using h2m
          have hinv' : ∀ r ∈ rs0 ++ [(tid, content.length, pyTake content 200)],
              r.1 ∈ cs0.map (fun x => x.id) := by
            intro r hr
            rcases List.mem_append.mp hr with h | h
            · exact hinv r h
            · have : r = (tid, content.length, pyTake content 200) := by simpa using h
              subst this
              exact htid
          exact ih cs0 (rs0 ++ [(tid, content.length, pyTake content 200)]) h1' h2' hinv' h3r

end ToolLogger

open ToolLogger AgentCore in
/-- C6.  For a transcript whose N ToolCalls have pairwise distinct ids,
each followed later by exactly one ToolResult bearing its id, the
reconstruction yields exactly N records, all of type tool_call, each being
its call's record merged with the matched result's length and preview —
zero standalone tool_result records; and for any transcript at all, a
trailing tool result whose id matches no ToolCall is appended as a
standalone unmatched record rather than dropped. -/
theorem c6_logger_matching (msgs : List AgentCore.Msg)
    (h1 : ((AgentCore.callItems msgs).map (fun c => c.id)).Nodup)
    (h2 : ((toolResults msgs).map (fun r => r.1)).Nodup)
    (h3 : resultsMatchEarlier [] msgs = true)
    (h4 : ∀ c ∈ AgentCore.callItems msgs,
        c.id ∈ (toolResults msgs).map (fun r => r.1)) :
    (extract_tool_calls msgs).length = (AgentCore.callItems msgs).length ∧
    (∀ r ∈ extract_tool_calls msgs, r.type = "tool_call") ∧
    (∀ r ∈ extract_tool_calls msgs, ∃ c ∈ AgentCore.callItems msgs,
        ∃ res ∈ toolResults msgs, res.1 = c.id ∧ r = mergedRec c res) ∧
    (∀ (msgs2 : List AgentCore.Msg) (name content tid : String),
        (∀ c ∈ AgentCore.callItems msgs2, c.id ≠ tid) →
        extract_tool_calls (msgs2 ++ [AgentCore.Msg.tool name content tid])
          = extract_tool_calls msgs2 ++ [toolResultRec name content.length tid]) := by
  have hmain : extract_tool_calls msgs
      = buildAcc (callItems msgs) (toolResults msgs) := by
    have hs := extractGo_spec msgs [] [] (by simpa using h1) (by simpa using h2)
      (by intro r hr; exact absurd hr (List.not_mem_nil r)) h3
    exact hs
  refine ⟨?_, ?_, ?_, ?_⟩
  · rw [hmain]
    unfold buildAcc
    exact List.length_map _ _
  · intro r hr
    rw [hmain] at hr
    unfold buildAcc at hr
    obtain ⟨c, hc, rfl⟩ := List.mem_map.mp hr
    cases hfind : List.find? (fun x => x.1 == c.id) (toolResults msgs) with
    | some res => simp [hfind, mergedRec]
    | none => simp [hfind, toolCallRec]
  · intro r hr
    rw [hmain] at hr
    unfold buildAcc at hr
    obtain ⟨c, hc, rfl⟩ := List.mem_map.mp hr
    obtain ⟨x, hx, hxid⟩ := List.mem_map.mp (h4 c hc)
    have hsome : (List.find? (fun y => y.1 == c.id) (toolResults msgs)).isSome := by
      rw [List.find?_isSome]
      exact ⟨x, hx, by simp [hxid]⟩
    obtain ⟨res, hres⟩ := Option.isSome_iff_exists.mp hsome
    have hp : (res.1 == c.id) = true := by
      have hq := List.find?_some hres
      simpa using hq
    have hmemres : res ∈ toolResults msgs := List.mem_of_find?_eq_some hres
    refine ⟨c, hc, res, hmemres, by simpa using hp, ?_⟩
    simp [hres]
  · intro msgs2 name content tid hno
    have hsplit : extract_tool_calls (msgs2 ++ [AgentCore.Msg.tool name content tid])
        = extractStep (extract_tool_calls msgs2) (AgentCore.Msg.tool name content tid) := by
      unfold extract_tool_calls
      rw [extractGo_append]
      rfl
    have hnone : mergeFirst tid content.length (pyTake content 200)
        (extract_tool_calls msgs2) = none := by
      apply mergeFirst_eq_none
      intro r hr
      rcases extract_record_ids msgs2 [] r hr with ⟨r0, hr0, _⟩ | hn | ⟨c, hc, heq⟩
      · exact absurd hr0 (List.not_mem_nil r0)
      · simp [hn]
      · rw [heq]
        intro h
        exact hno c hc (by simpa using h)
    rw [hsplit]
    simp [extractStep, hnone]

namespace ToolLogger

/-- A concrete transcript with two ToolCalls, each matched later by its
ToolResult. -/
def c6msgs : List AgentCore.Msg :=
  [AgentCore.Msg.human "find a door seal for my dishwasher",
    AgentCore.Msg.ai "" [⟨"sql_search_tool", [("sql_query", "SELECT 1")], "call_a"⟩,
      ⟨"vector_search_tool", [("query", "door seal")], "call_b"⟩],
    AgentCore.Msg.tool "sql_search_tool" "two rows" "call_a",
    AgentCore.Msg.tool "vector_search_tool" "three hits" "call_b",
    AgentCore.Msg.ai "here is what I found" []]

end ToolLogger

open ToolLogger AgentCore in
/-- C6 witness: on the concrete two-call transcript the hypotheses hold
and the reconstruction yields two merged records and no standalone
result record. -/
theorem c6_logger_matching_witness :
    (((AgentCore.callItems c6msgs).map (fun c => c.id)).Nodup ∧
      ((toolResults c6msgs).map (fun r => r.1)).Nodup ∧
      resultsMatchEarlier [] c6msgs = true ∧
      ∀ c ∈ AgentCore.callItems c6msgs,
        c.id ∈ (toolResults c6msgs).map (fun r => r.1)) ∧
    ((extract_tool_calls c6msgs).length = (AgentCore.callItems c6msgs).length ∧
      (∀ r ∈ extract_tool_calls c6msgs, r.type = "tool_call") ∧
      (∀ r ∈ extract_tool_calls c6msgs, ∃ c ∈ AgentCore.callItems c6msgs,
          ∃ res ∈ toolResults c6msgs, res.1 = c.id ∧ r = mergedRec c res) ∧
      (∀ (msgs2 : List AgentCore.Msg) (name content tid : String),
          (∀ c ∈ AgentCore.callItems msgs2, c.id ≠ tid) →
          extract_tool_calls (msgs2 ++ [AgentCore.Msg.tool name content tid])
            = extract_tool_calls msgs2 ++ [toolResultRec name content.length tid])) :=
  ⟨⟨by decide, by decide, by decide, by decide⟩,
    c6_logger_matching c6msgs (by decide) (by decide) (by decide) (by decide)⟩
